import Mathlib

/-!
Verification development for the Kaggle ETL pipeline (kaggle_etl_dag.py).

The pipeline's core (stages 3-5) is shallowly embedded here:
  - load_data_to_mysql        : deduplicating stager against the MySQL staging table
  - transform_data            : the cleaning / normalization stage (pandas operations)
  - load_transformed_data_to_postgresql : per-row conditional insert
                                (INSERT ... ON CONFLICT (Order_Number) DO NOTHING)

A pandas cell value is a string, a (rational) number, or null (NaN / NaT / missing).
A record (one row, as produced by DataFrame.to_dict applied with the records
orientation) is an association list from column names to values.  Building a
DataFrame from a list of such records (pd.DataFrame(list_of_dicts)) produces the
union of the keys as columns, filling absent keys with NaN; this is the
normalizeBatch function below.  The two relational stores are modelled as lists of
records, accessed exactly through the query / insert contracts the source uses:
the staging store through a read of its Order_Number column and a row append
(to_sql with append), the destination store through the conditional insert.
-/

/-- A pandas cell value: a string, a number (modelled as a rational, covering
int64/float64 contents), or null (NaN / NaT / a missing field). -/
inductive Value where
  | str : String → Value
  | num : Rat → Value
  | null : Value
deriving DecidableEq

/-- One row of a DataFrame in records orientation: an ordered association list
from column names to values. -/
abbrev Record := List (String × Value)

/-- Lookup of a field: the first entry with the given key, if any. -/
def getField : Record → String → Option Value
  | [], _ => none
  | p :: ps, k => if p.1 = k then some p.2 else getField ps k

/-- Value of a field as pandas sees it inside a DataFrame: a missing key is NaN. -/
def getV (r : Record) (k : String) : Value :=
  (getField r k).getD Value.null

/-- Keys of a record, in order. -/
def keysOf (r : Record) : List String :=
  r.map Prod.fst

/-- Removes later duplicates from a list of column names, keeping the first
occurrence of each (the column order pd.DataFrame uses). -/
def dedupFirst : List String → List String
  | [] => []
  | k :: ks => k :: (dedupFirst ks).filter (fun x => decide (x ≠ k))

/-- Columns of the DataFrame pd.DataFrame(batch) builds: the union of the
records' keys, in order of first appearance. -/
def colsOf : List Record → List String
  | [] => []
  | r :: rs => dedupFirst (keysOf r ++ colsOf rs)

/-- One row of pd.DataFrame(batch): every column present, absent keys are NaN. -/
def normalizeRow (cols : List String) (r : Record) : Record :=
  cols.map (fun c => (c, getV r c))

/-- pd.DataFrame(batch) followed by to_dict in records orientation: each record
acquires the full column set, with NaN for keys it lacked. -/
def normalizeBatch (batch : List Record) : List Record :=
  batch.map (normalizeRow (colsOf batch))

/-- Column assignment df[k] = v for one row: replaces the value at key k
(the column exists whenever the source performs the assignment), or appends
the column if it was absent. -/
def setField (r : Record) (k : String) (v : Value) : Record :=
  if k ∈ keysOf r then r.map (fun p => if p.1 = k then (k, v) else p)
  else r ++ [(k, v)]

/-! ### Stage 3: load_data_to_mysql (deduplicating stager) -/

/-- Result of SELECT Order_Number FROM kaggle_data_staging: the Order_Number
column of the staging store. -/
def existingOrderNumbers (staging : List Record) : List Value :=
  staging.map (fun r => getV r "Order_Number")

/-- new_data: the extracted rows whose Order_Number is not among the staging
store's existing Order_Number values (the isin filter, negated). -/
def stagingBatch (extracted staging : List Record) : List Record :=
  (normalizeBatch extracted).filter
    (fun r => decide (getV r "Order_Number" ∉ existingOrderNumbers staging))

/-- load_data_to_mysql: raises when the Order_Number column is absent from the
extracted DataFrame; otherwise appends new_data to the staging store
(to_sql with append) and hands new_data to the next stage (xcom_push).
Returns the grown staging store together with the staged batch. -/
def load_data_to_mysql (extracted staging : List Record) :
    Except String (List Record × List Record) :=
  if "Order_Number" ∈ colsOf extracted then
    Except.ok (staging ++ stagingBatch extracted staging, stagingBatch extracted staging)
  else
    Except.error "Column 'Order_Number' not found in the provided data."

/-! ### Stage 4: transform_data (cleaner) -/

/-- Digit string to number (the strings are validated as all-digits first). -/
def digitsToNat (cs : List Char) : Nat :=
  cs.foldl (fun a c => a * 10 + (c.toNat - 48)) 0

/-- Strips surrounding whitespace from a character list (str.strip / trimming,
as Python's numeric constructors do before parsing). -/
def charTrim (cs : List Char) : List Char :=
  ((cs.dropWhile Char.isWhitespace).reverse.dropWhile Char.isWhitespace).reverse

/-- Splits a character list at every occurrence of a separator (the pieces of
str.split, possibly empty). -/
def splitOnChar (sep : Char) (cs : List Char) : List (List Char) :=
  cs.foldr
    (fun c acc =>
      if c = sep then [] :: acc
      else
        match acc with
        | h :: t => (c :: h) :: t
        | [] => [[c]])
    [[]]

/-- Nonempty and entirely decimal digits. -/
def allDigits (cs : List Char) : Bool :=
  decide (cs ≠ []) && cs.all (fun c => c.isDigit)

/-- Gregorian leap year. -/
def isLeap (y : Nat) : Bool :=
  (decide (y % 4 = 0) && decide (y % 100 ≠ 0)) || decide (y % 400 = 0)

/-- Days in a month of the proleptic Gregorian calendar. -/
def daysInMonth (y m : Nat) : Nat :=
  if m = 2 then (if isLeap y then 29 else 28)
  else if m = 4 ∨ m = 6 ∨ m = 9 ∨ m = 11 then 30
  else 31

/-- Whether a calendar day lies in the pandas Timestamp range: to_datetime with
errors coerce turns dates outside [1677-09-22, 2262-04-11] into NaT. -/
def inTimestampRange (y m d : Nat) : Bool :=
  decide (16770922 ≤ y * 10000 + m * 100 + d) && decide (y * 10000 + m * 100 + d ≤ 22620411)

/-- Parser for the %d/%m/%Y format of pd.to_datetime: day and month of one or
two digits, year of up to four digits, slash-separated, the whole string
consumed, and the triple a valid in-range calendar day.  Returns (d, m, y). -/
def parseDMY (s : String) : Option (Nat × Nat × Nat) :=
  match splitOnChar '/' s.toList with
  | [dd, mm, yy] =>
    if allDigits dd ∧ allDigits mm ∧ allDigits yy
        ∧ dd.length ≤ 2 ∧ mm.length ≤ 2 ∧ yy.length ≤ 4 then
      let d := digitsToNat dd
      let m := digitsToNat mm
      let y := digitsToNat yy
      if 1 ≤ m ∧ m ≤ 12 ∧ 1 ≤ d ∧ d ≤ daysInMonth y m ∧ inTimestampRange y m d then
        some (d, m, y)
      else none
    else none
  | _ => none

/-- Zero-padding to two digits (strftime %m, %d). -/
def pad2 (n : Nat) : String :=
  if n < 10 then "0" ++ toString n else toString n

/-- Zero-padding to four digits (strftime %Y). -/
def pad4 (n : Nat) : String :=
  if n < 10 then "000" ++ toString n
  else if n < 100 then "00" ++ toString n
  else if n < 1000 then "0" ++ toString n
  else toString n

/-- strftime with the %Y-%m-%d format. -/
def fmtYMD (y m d : Nat) : String :=
  pad4 y ++ "-" ++ pad2 m ++ "-" ++ pad2 d

/-- One cell of pd.to_datetime(col, format dd/mm/YYYY, errors coerce) followed by
dt.strftime: a parsable string becomes its YYYY-MM-DD form, anything else
(unparsable string, number, NaN) becomes NaT and strftime turns NaT into NaN. -/
def dateTransform : Value → Value
  | Value.str s =>
    match parseDMY s with
    | some (d, m, y) => Value.str (fmtYMD y m d)
    | none => Value.null
  | Value.num _ => Value.null
  | Value.null => Value.null

/-- The rename map for PostgreSQL compatibility. -/
def renameCol (c : String) : String :=
  if c = "Assigned Supervisor" then "Assigned_Supervisor" else c

/-- Per-row effect of the Order_Date column assignment. -/
def rowDate (r : Record) : Record :=
  setField r "Order_Date" (dateTransform (getV r "Order_Date"))

/-- Per-row effect of DataFrame.rename on the columns. -/
def rowRename (r : Record) : Record :=
  r.map (fun p => (renameCol p.1, p.2))

/-- A row after the date formatting and the column rename. -/
def midRow (r : Record) : Record :=
  rowRename (rowDate r)

/-- The dropna criterion on the subset [Cost, Sales]: keep a row iff neither
cell is NaN. -/
def keepCS (r : Record) : Bool :=
  decide (getV r "Cost" ≠ Value.null) && decide (getV r "Sales" ≠ Value.null)

/-- Exponent part of a numeric literal; mant and e10 are the mantissa digits
and the number of fraction digits already consumed. -/
def expPart (mant : Int) (e10 : Nat) (t : List Char) : Option Rat :=
  let sd : Int × List Char :=
    match t with
    | '-' :: u => (-1, u)
    | '+' :: u => (1, u)
    | u => (1, u)
  if allDigits sd.2 then
    let e : Int := sd.1 * (digitsToNat sd.2 : Int) - (e10 : Int)
    some (if 0 ≤ e then mkRat (mant * (10 : Int) ^ e.toNat) 1
          else mkRat mant ((10 : Nat) ^ (-e).toNat))
  else none

/-- Parser for the decimal numerals pd.to_numeric accepts: optional surrounding
whitespace, optional sign, digits with an optional fraction part (at least one
digit overall), and an optional exponent. -/
def numParse (s : String) : Option Rat :=
  let cs0 := charTrim s.toList
  let sc : Int × List Char :=
    match cs0 with
    | '-' :: t => (-1, t)
    | '+' :: t => (1, t)
    | t => (1, t)
  let ip := sc.2.takeWhile (fun c => c.isDigit)
  let rest := sc.2.dropWhile (fun c => c.isDigit)
  let fp : List Char × List Char :=
    match rest with
    | '.' :: t => (t.takeWhile (fun c => c.isDigit), t.dropWhile (fun c => c.isDigit))
    | r => ([], r)
  if ip.isEmpty && fp.1.isEmpty then none
  else
    let mant : Int := sc.1 * (digitsToNat (ip ++ fp.1) : Int)
    match fp.2 with
    | [] => some (mkRat mant ((10 : Nat) ^ fp.1.length))
    | 'e' :: t => expPart mant fp.1.length t
    | 'E' :: t => expPart mant fp.1.length t
    | _ => none

/-- One cell of pd.to_numeric(col, errors coerce): numbers pass through,
parsable strings become numbers, NaN stays NaN, anything else becomes NaN. -/
def toNumeric : Value → Value
  | Value.num q => Value.num q
  | Value.null => Value.null
  | Value.str s =>
    match numParse s with
    | some q => Value.num q
    | none => Value.null

/-- Per-row effect of the two to_numeric column assignments. -/
def rowNum (r : Record) : Record :=
  setField (setField r "Cost" (toNumeric (getV r "Cost"))) "Sales"
    (toNumeric (getV r "Sales"))

/-- Truncation of a rational toward zero: how numpy casts float64 to int64 and
how Python's int() acts on a float. -/
def ratTrunc (q : Rat) : Int :=
  Int.tdiv q.num (q.den : Int)

/-- Python's int() on a stripped string: an optional sign followed by digits. -/
def intParse (s : String) : Option Int :=
  match charTrim s.toList with
  | '-' :: cs => if allDigits cs then some (-(digitsToNat cs : Int)) else none
  | '+' :: cs => if allDigits cs then some ((digitsToNat cs : Int)) else none
  | cs => if allDigits cs then some ((digitsToNat cs : Int)) else none

/-- One cell of Series.astype(int): a number is truncated toward zero, a string
goes through int(), and NaN (like any other unconvertible cell) raises, which
the column-level operation surfaces as a failure of the whole stage. -/
def intCoerce : Value → Option Int
  | Value.num q => some (ratTrunc q)
  | Value.str s => intParse s
  | Value.null => none

/-- One cell of astype(int).astype(str): the canonical string form of
Order_Number, when the integer cast succeeds. -/
def onCanon (v : Value) : Option Value :=
  (intCoerce v).map (fun i => Value.str (toString i))

/-- Per-row effect of the Order_Number assignment (total function; the stage
only uses it after checking that every cast succeeds). -/
def rowON (r : Record) : Record :=
  setField r "Order_Number"
    (Value.str (toString ((intCoerce (getV r "Order_Number")).getD 0)))

/-- The fillna dictionary of the source, in source order. -/
def fillMap : List (String × Value) :=
  [("State_Code", Value.str "Unknown"), ("Customer_Name", Value.str "Unknown"),
   ("Status", Value.str "Unknown"), ("Product", Value.str "Unknown"),
   ("Category", Value.str "Unknown"), ("Brand", Value.str "Unknown"),
   ("Quantity", Value.num 0), ("Total_Cost", Value.num 0),
   ("Total_Sales", Value.num 0), ("Assigned_Supervisor", Value.str "Unknown")]

/-- Effect of the fillna dictionary on one cell (keyed entry of a row). -/
def fillEntry (p : String × Value) : String × Value :=
  match fillMap.find? (fun q => decide (q.1 = p.1)) with
  | some q => if p.2 = Value.null then (p.1, q.2) else p
  | none => p

/-- Per-row effect of DataFrame.fillna with a dictionary: only cells of columns
the frame actually has are filled, and only when they are NaN. -/
def rowFill (r : Record) : Record :=
  r.map fillEntry

/-- DataFrame.drop_duplicates: full-row equality, keeping first occurrences. -/
def dedupAux (seen : List Record) : List Record → List Record
  | [] => []
  | r :: rs => if r ∈ seen then dedupAux seen rs else r :: dedupAux (r :: seen) rs

/-- The staged batch as a DataFrame, after drop_duplicates. -/
def dropDuplicates (l : List Record) : List Record :=
  dedupAux [] l

/-- The rows transform_data works on: the staged batch as a DataFrame
(normalized) with exact duplicates removed. -/
def preRows (staged : List Record) : List Record :=
  dropDuplicates (normalizeBatch staged)

/-- The DataFrame's columns after the rename. -/
def cols2Of (staged : List Record) : List String :=
  (colsOf staged).map renameCol

/-- Rows remaining after date formatting, rename, and the dropna on Cost and
Sales. -/
def preFiltered (staged : List Record) : List Record :=
  ((preRows staged).map midRow).filter keepCS

/-- Rows after the to_numeric assignments to Cost and Sales. -/
def preCoerced (staged : List Record) : List Record :=
  (preFiltered staged).map rowNum

/-- Whether the whole-column astype(int) on Order_Number succeeds: it does iff
every remaining cell is convertible. -/
def allONCoercible (staged : List Record) : Bool :=
  (preCoerced staged).all (fun r => (intCoerce (getV r "Order_Number")).isSome)

/-- transform_data: an absent Order_Date column short-circuits the stage with a
warning and no output (nothing is pushed, so downstream sees an empty batch);
then drop_duplicates, the Order_Date formatting, the rename, the dropna on
Cost and Sales, the to_numeric coercions, the Order_Number canonicalization
(whose failure aborts the stage with a ValueError), and the fillna defaults.
The dropna and the column reads raise KeyError when Cost, Sales or
Order_Number is not a column. -/
def transform_data (staged : List Record) : Except String (List Record) :=
  if "Order_Date" ∈ colsOf staged then
    if "Cost" ∈ cols2Of staged ∧ "Sales" ∈ cols2Of staged then
      if "Order_Number" ∈ cols2Of staged then
        if allONCoercible staged then
          Except.ok (((preCoerced staged).map rowON).map rowFill)
        else Except.error "ValueError: invalid literal for int"
      else Except.error "KeyError: Order_Number"
    else Except.error "KeyError: Cost or Sales"
  else Except.ok []

/-- The whole per-row cleaning chain of transform_data, for rows that survive
the dropna. -/
def cleanedRow (r : Record) : Record :=
  rowFill (rowON (rowNum (midRow r)))

/-! ### Stage 5: load_transformed_data_to_postgresql (upserter) -/

/-- The 14 columns of the destination INSERT statement, in source order. -/
def destCols : List String :=
  ["Order_Number", "State_Code", "Customer_Name", "Order_Date", "Status",
   "Product", "Category", "Brand", "Cost", "Sales", "Quantity", "Total_Cost",
   "Total_Sales", "Assigned_Supervisor"]

/-- The row the INSERT statement binds from one record. -/
def toDestRow (r : Record) : Record :=
  destCols.map (fun c => (c, getV r c))

/-- Whether the destination store already has a row with the given
Order_Number value. -/
def keyPresent (dest : List Record) (k : Value) : Bool :=
  dest.any (fun d => decide (getV d "Order_Number" = k))

/-- One execution of INSERT ... ON CONFLICT (Order_Number) DO NOTHING: a row
whose (non-null) key is already present is skipped; otherwise the row is
inserted (SQL NULL keys never conflict with each other). -/
def upsertRow (dest : List Record) (r : Record) : List Record :=
  if getV r "Order_Number" ≠ Value.null ∧ keyPresent dest (getV r "Order_Number") = true
  then dest
  else dest ++ [toDestRow r]

/-- The iterrows loop: one conditional insert per row, in order. -/
def loadRows (rows : List Record) (dest : List Record) : List Record :=
  rows.foldl upsertRow dest

/-- load_transformed_data_to_postgresql: rebuild the DataFrame from the pushed
records and insert row by row. -/
def load_transformed_data_to_postgresql (transformed dest : List Record) : List Record :=
  loadRows (normalizeBatch transformed) dest

/-- Number of destination rows carrying a given Order_Number value. -/
def countKey (dest : List Record) (k : Value) : Nat :=
  (dest.filter (fun d => decide (getV d "Order_Number" = k))).length

/-- The destination store's uniqueness constraint on Order_Number: at most one
row per non-null key value. -/
def uniqueKey (dest : List Record) : Prop :=
  ∀ d ∈ dest, getV d "Order_Number" ≠ Value.null →
    countKey dest (getV d "Order_Number") ≤ 1

/-! ### The composed pipeline -/

/-- The two persistent stores the core reads and writes. -/
structure PipelineState where
  staging : List Record
  dest : List Record
deriving DecidableEq

/-- One full pipeline run from the extracted record batch (stages 1-2, the
download and the CSV parse, are deterministic in the source file, so running
twice on the same file feeds the same batch twice): stage, transform, upsert. -/
def runPipeline (source : List Record) (st : PipelineState) :
    Except String PipelineState :=
  match load_data_to_mysql source st.staging with
  | Except.error e => Except.error e
  | Except.ok sb =>
    match transform_data sb.2 with
    | Except.error e => Except.error e
    | Except.ok cleaned =>
      Except.ok ⟨sb.1, load_transformed_data_to_postgresql cleaned st.dest⟩

deriving instance DecidableEq for Except

/-! ### Field lookup lemmas -/

@[simp] theorem getField_nil (k : String) : getField [] k = none := rfl

@[simp] theorem getField_cons (p : String × Value) (ps : Record) (k : String) :
    getField (p :: ps) k = if p.1 = k then some p.2 else getField ps k := rfl

@[simp] theorem keysOf_nil : keysOf [] = [] := rfl

@[simp] theorem keysOf_cons (p : String × Value) (ps : Record) :
    keysOf (p :: ps) = p.1 :: keysOf ps := rfl

theorem getField_eq_none (r : Record) (k : String) :
    getField r k = none ↔ k ∉ keysOf r := by
  induction r with
  | nil => simp
  | cons p ps ih =>
    by_cases h : p.1 = k
    · simp [h]
    · rw [getField_cons, if_neg h, keysOf_cons, List.mem_cons]
      simp only [ih]
      constructor
      · rintro hn (h1 | h2)
        · exact h h1.symm
        · exact hn h2
      · intro hn h2
        exact hn (Or.inr h2)

theorem getField_map_update (r : Record) (k : String) (v : Value)
    (h : k ∈ keysOf r) :
    getField (r.map (fun p => if p.1 = k then (k, v) else p)) k = some v := by
  induction r with
  | nil => simp at h
  | cons p ps ih =>
    by_cases hp : p.1 = k
    · simp [hp]
    · rw [keysOf_cons, List.mem_cons] at h
      have hk : k ∈ keysOf ps := by
        rcases h with h1 | h2
        · exact absurd h1.symm hp
        · exact h2
      simp [hp, ih hk]

theorem getField_append_single (r : Record) (k : String) (v : Value)
    (h : k ∉ keysOf r) :
    getField (r ++ [(k, v)]) k = some v := by
  induction r with
  | nil => simp
  | cons p ps ih =>
    rw [keysOf_cons, List.mem_cons] at h
    push_neg at h
    simp [Ne.symm h.1, ih h.2]

theorem getV_setField_same (r : Record) (k : String) (v : Value) :
    getV (setField r k v) k = v := by
  unfold setField getV
  by_cases h : k ∈ keysOf r
  · rw [if_pos h, getField_map_update r k v h]; rfl
  · rw [if_neg h, getField_append_single r k v h]; rfl

theorem getField_map_update_ne (r : Record) (k : String) (v : Value)
    (k' : String) (h : k' ≠ k) :
    getField (r.map (fun p => if p.1 = k then (k, v) else p)) k' = getField r k' := by
  induction r with
  | nil => simp
  | cons p ps ih =>
    by_cases hp : p.1 = k
    · simp [hp, Ne.symm h, ih]
    · simp [hp, ih]

theorem getField_append_single_ne (r : Record) (k : String) (v : Value)
    (k' : String) (h : k' ≠ k) :
    getField (r ++ [(k, v)]) k' = getField r k' := by
  induction r with
  | nil => simp [Ne.symm h]
  | cons p ps ih =>
    by_cases hp : p.1 = k'
    · simp [hp]
    · simp [hp, ih]

theorem getV_setField_ne (r : Record) (k : String) (v : Value)
    (k' : String) (h : k' ≠ k) :
    getV (setField r k v) k' = getV r k' := by
  unfold setField getV
  by_cases hm : k ∈ keysOf r
  · rw [if_pos hm, getField_map_update_ne r k v k' h]
  · rw [if_neg hm, getField_append_single_ne r k v k' h]

/-! ### Rename and fillna lemmas -/

@[simp] theorem rowRename_nil : rowRename [] = [] := rfl

@[simp] theorem rowRename_cons (p : String × Value) (ps : Record) :
    rowRename (p :: ps) = (renameCol p.1, p.2) :: rowRename ps := rfl

theorem getField_rowRename (r : Record) (k : String)
    (h1 : k ≠ "Assigned Supervisor") (h2 : k ≠ "Assigned_Supervisor") :
    getField (rowRename r) k = getField r k := by
  induction r with
  | nil => rfl
  | cons p ps ih =>
    by_cases hp : p.1 = k
    · have hr : renameCol p.1 = k := by
        rw [hp]; unfold renameCol; rw [if_neg h1]
      rw [rowRename_cons, getField_cons, if_pos hr, getField_cons, if_pos hp]
    · have hr : renameCol p.1 ≠ k := by
        unfold renameCol
        by_cases hq : p.1 = "Assigned Supervisor"
        · rw [if_pos hq]; exact Ne.symm h2
        · rw [if_neg hq]; exact hp
      rw [rowRename_cons, getField_cons, if_neg hr, getField_cons, if_neg hp]
      exact ih

theorem getV_rowRename (r : Record) (k : String)
    (h1 : k ≠ "Assigned Supervisor") (h2 : k ≠ "Assigned_Supervisor") :
    getV (rowRename r) k = getV r k := by
  unfold getV; rw [getField_rowRename r k h1 h2]

theorem fillEntry_of_none (p : String × Value)
    (h : fillMap.find? (fun q => decide (q.1 = p.1)) = none) :
    fillEntry p = p := by
  unfold fillEntry; rw [h]

theorem fillEntry_fst (p : String × Value) : (fillEntry p).1 = p.1 := by
  unfold fillEntry
  cases hq : fillMap.find? (fun q => decide (q.1 = p.1)) with
  | none => rfl
  | some q => by_cases hv : p.2 = Value.null <;> simp [hv]

@[simp] theorem rowFill_nil : rowFill [] = [] := rfl

@[simp] theorem rowFill_cons (p : String × Value) (ps : Record) :
    rowFill (p :: ps) = fillEntry p :: rowFill ps := rfl

theorem getField_rowFill (r : Record) (k : String)
    (h : fillMap.find? (fun q => decide (q.1 = k)) = none) :
    getField (rowFill r) k = getField r k := by
  induction r with
  | nil => rfl
  | cons p ps ih =>
    by_cases hp : p.1 = k
    · have he : fillEntry p = p := fillEntry_of_none p (by rw [hp]; exact h)
      rw [rowFill_cons, he, getField_cons, if_pos hp, getField_cons, if_pos hp]
    · have hf : (fillEntry p).1 ≠ k := by rw [fillEntry_fst]; exact hp
      rw [rowFill_cons, getField_cons, if_neg hf, getField_cons, if_neg hp]
      exact ih

theorem getV_rowFill (r : Record) (k : String)
    (h : fillMap.find? (fun q => decide (q.1 = k)) = none) :
    getV (rowFill r) k = getV r k := by
  unfold getV; rw [getField_rowFill r k h]

/-! ### DataFrame construction lemmas -/

theorem mem_dedupFirst (k : String) (l : List String) :
    k ∈ dedupFirst l ↔ k ∈ l := by
  induction l with
  | nil => simp [dedupFirst]
  | cons x xs ih =>
    by_cases hkx : k = x
    · simp [dedupFirst, hkx]
    · simp [dedupFirst, List.mem_filter, ih, hkx]

theorem mem_colsOf (k : String) (rs : List Record) :
    k ∈ colsOf rs ↔ ∃ r ∈ rs, k ∈ keysOf r := by
  induction rs with
  | nil => simp [colsOf]
  | cons r rs ih =>
    simp [colsOf, mem_dedupFirst, List.mem_append, ih]

theorem getField_normalizeRow (cols : List String) (r : Record) (k : String) :
    getField (normalizeRow cols r) k = if k ∈ cols then some (getV r k) else none := by
  induction cols with
  | nil => simp [normalizeRow]
  | cons c cs ih =>
    by_cases hc : c = k
    · simp [normalizeRow, hc]
    · simp only [normalizeRow, List.map_cons, getField_cons] at *
      rw [if_neg hc, ih]
      by_cases hk : k ∈ cs
      · rw [if_pos hk, if_pos (List.mem_cons.mpr (Or.inr hk))]
      · rw [if_neg hk, if_neg]
        intro hm
        rcases List.mem_cons.mp hm with h1 | h2
        · exact hc h1.symm
        · exact hk h2

theorem getV_normalizeRow_of_mem (rs : List Record) (r : Record) (hr : r ∈ rs)
    (k : String) :
    getV (normalizeRow (colsOf rs) r) k = getV r k := by
  unfold getV
  rw [getField_normalizeRow]
  by_cases hk : k ∈ colsOf rs
  · rw [if_pos hk]; rfl
  · rw [if_neg hk]
    have hkr : k ∉ keysOf r := fun hkr => hk ((mem_colsOf k rs).mpr ⟨r, hr, hkr⟩)
    rw [(getField_eq_none r k).mpr hkr]

/-! ### Per-row transform field lemmas -/

theorem getV_rowDate_same (r : Record) :
    getV (rowDate r) "Order_Date" = dateTransform (getV r "Order_Date") :=
  getV_setField_same r "Order_Date" _

theorem getV_rowDate_ne (r : Record) (k : String) (h : k ≠ "Order_Date") :
    getV (rowDate r) k = getV r k :=
  getV_setField_ne r "Order_Date" _ k h

theorem getV_midRow_ne (r : Record) (k : String) (h1 : k ≠ "Order_Date")
    (h2 : k ≠ "Assigned Supervisor") (h3 : k ≠ "Assigned_Supervisor") :
    getV (midRow r) k = getV r k := by
  unfold midRow
  rw [getV_rowRename _ k h2 h3, getV_rowDate_ne r k h1]

theorem getV_midRow_date (r : Record) :
    getV (midRow r) "Order_Date" = dateTransform (getV r "Order_Date") := by
  unfold midRow
  rw [getV_rowRename _ "Order_Date" (by decide) (by decide), getV_rowDate_same]

theorem getV_rowNum_cost (r : Record) :
    getV (rowNum r) "Cost" = toNumeric (getV r "Cost") := by
  unfold rowNum
  rw [getV_setField_ne _ "Sales" _ "Cost" (by decide), getV_setField_same]

theorem getV_rowNum_sales (r : Record) :
    getV (rowNum r) "Sales" = toNumeric (getV r "Sales") :=
  getV_setField_same _ "Sales" _

theorem getV_rowNum_ne (r : Record) (k : String) (h1 : k ≠ "Cost")
    (h2 : k ≠ "Sales") :
    getV (rowNum r) k = getV r k := by
  unfold rowNum
  rw [getV_setField_ne _ "Sales" _ k h2, getV_setField_ne _ "Cost" _ k h1]

theorem getV_rowON_same (r : Record) :
    getV (rowON r) "Order_Number" =
      Value.str (toString ((intCoerce (getV r "Order_Number")).getD 0)) :=
  getV_setField_same r "Order_Number" _

theorem getV_rowON_ne (r : Record) (k : String) (h : k ≠ "Order_Number") :
    getV (rowON r) k = getV r k :=
  getV_setField_ne r "Order_Number" _ k h

theorem getV_cleanedRow_order_number (r : Record) :
    getV (cleanedRow r) "Order_Number" =
      Value.str (toString ((intCoerce (getV r "Order_Number")).getD 0)) := by
  unfold cleanedRow
  rw [getV_rowFill _ "Order_Number" (by decide), getV_rowON_same,
    getV_rowNum_ne _ "Order_Number" (by decide) (by decide),
    getV_midRow_ne _ "Order_Number" (by decide) (by decide) (by decide)]

theorem getV_cleanedRow_cost (r : Record) :
    getV (cleanedRow r) "Cost" = toNumeric (getV r "Cost") := by
  unfold cleanedRow
  rw [getV_rowFill _ "Cost" (by decide),
    getV_rowON_ne _ "Cost" (by decide), getV_rowNum_cost,
    getV_midRow_ne _ "Cost" (by decide) (by decide) (by decide)]

theorem getV_cleanedRow_date (r : Record) :
    getV (cleanedRow r) "Order_Date" = dateTransform (getV r "Order_Date") := by
  unfold cleanedRow
  rw [getV_rowFill _ "Order_Date" (by decide),
    getV_rowON_ne _ "Order_Date" (by decide),
    getV_rowNum_ne _ "Order_Date" (by decide) (by decide), getV_midRow_date]

theorem keepCS_midRow (r : Record) :
    keepCS (midRow r) =
      (decide (getV r "Cost" ≠ Value.null) && decide (getV r "Sales" ≠ Value.null)) := by
  unfold keepCS
  rw [getV_midRow_ne _ "Cost" (by decide) (by decide) (by decide),
    getV_midRow_ne _ "Sales" (by decide) (by decide) (by decide)]

/-! ### Structural lemmas about the stager -/

theorem stagingBatch_idem (source staging : List Record) :
    stagingBatch source (staging ++ stagingBatch source staging) = [] := by
  show List.filter
      (fun r => decide (getV r "Order_Number" ∉
        existingOrderNumbers (staging ++ stagingBatch source staging)))
      (normalizeBatch source) = []
  rw [List.filter_eq_nil_iff]
  intro r hr
  simp only [decide_eq_true_eq, not_not]
  unfold existingOrderNumbers
  rw [List.map_append]
  by_cases hm : getV r "Order_Number" ∈
      List.map (fun t => getV t "Order_Number") staging
  · exact List.mem_append_left _ hm
  · refine List.mem_append_right _ ?_
    have hrB : r ∈ stagingBatch source staging := by
      unfold stagingBatch
      refine List.mem_filter.mpr ⟨hr, ?_⟩
      simp only [decide_eq_true_eq]
      intro hc
      exact hm hc
    exact List.mem_map_of_mem _ hrB

/-! ### Structural lemmas about the transformer -/

theorem transform_skip (staged : List Record)
    (hOD : "Order_Date" ∉ colsOf staged) :
    transform_data staged = Except.ok [] := by
  unfold transform_data
  rw [if_neg hOD]

theorem transform_ok_main (staged out : List Record)
    (h : transform_data staged = Except.ok out)
    (hOD : "Order_Date" ∈ colsOf staged) :
    out = ((preCoerced staged).map rowON).map rowFill := by
  unfold transform_data at h
  rw [if_pos hOD] at h
  by_cases h1 : "Cost" ∈ cols2Of staged ∧ "Sales" ∈ cols2Of staged
  · rw [if_pos h1] at h
    by_cases h2 : "Order_Number" ∈ cols2Of staged
    · rw [if_pos h2] at h
      by_cases h3 : allONCoercible staged = true
      · rw [if_pos h3] at h
        injection h with h
        exact h.symm
      · rw [if_neg h3] at h
        exact absurd h (by simp)
    · rw [if_neg h2] at h
      exact absurd h (by simp)
  · rw [if_neg h1] at h
    exact absurd h (by simp)

theorem transform_error_of_bad_on (staged : List Record)
    (hOD : "Order_Date" ∈ colsOf staged)
    (hCS : "Cost" ∈ cols2Of staged ∧ "Sales" ∈ cols2Of staged)
    (hON : "Order_Number" ∈ cols2Of staged)
    (hbad : ∃ r ∈ preCoerced staged, intCoerce (getV r "Order_Number") = none) :
    transform_data staged = Except.error "ValueError: invalid literal for int" := by
  have hall : ¬ (allONCoercible staged = true) := by
    intro hall
    rcases hbad with ⟨r, hr, hnone⟩
    unfold allONCoercible at hall
    have := List.all_eq_true.mp hall r hr
    rw [hnone] at this
    exact absurd this (by simp)
  unfold transform_data
  rw [if_pos hOD, if_pos hCS, if_pos hON, if_neg hall]

theorem mem_transform_out (staged out : List Record) (r' : Record)
    (h : transform_data staged = Except.ok out) (hr' : r' ∈ out) :
    ∃ r, r ∈ preRows staged ∧ keepCS (midRow r) = true ∧ r' = cleanedRow r := by
  by_cases hOD : "Order_Date" ∈ colsOf staged
  · have hout := transform_ok_main staged out h hOD
    rw [hout] at hr'
    rcases List.mem_map.mp hr' with ⟨a, ha, rfl⟩
    rcases List.mem_map.mp ha with ⟨b, hb, rfl⟩
    unfold preCoerced at hb
    rcases List.mem_map.mp hb with ⟨c, hc, rfl⟩
    unfold preFiltered at hc
    rcases List.mem_filter.mp hc with ⟨hc1, hc2⟩
    rcases List.mem_map.mp hc1 with ⟨r, hr, rfl⟩
    exact ⟨r, hr, hc2, rfl⟩
  · rw [transform_skip staged hOD] at h
    injection h with h
    rw [← h] at hr'
    exact absurd hr' (List.not_mem_nil r')

theorem cleanedRow_mem_out (staged out : List Record) (r : Record)
    (h : transform_data staged = Except.ok out)
    (hOD : "Order_Date" ∈ colsOf staged) (hr : r ∈ preRows staged)
    (hk : keepCS (midRow r) = true) :
    cleanedRow r ∈ out := by
  rw [transform_ok_main staged out h hOD]
  refine List.mem_map.mpr ⟨rowON (rowNum (midRow r)), ?_, rfl⟩
  refine List.mem_map.mpr ⟨rowNum (midRow r), ?_, rfl⟩
  unfold preCoerced
  refine List.mem_map.mpr ⟨midRow r, ?_, rfl⟩
  unfold preFiltered
  exact List.mem_filter.mpr ⟨List.mem_map_of_mem _ hr, hk⟩

/-! ### Structural lemmas about the upserter -/

theorem getV_toDestRow_on (r : Record) :
    getV (toDestRow r) "Order_Number" = getV r "Order_Number" := rfl

theorem upsertRow_skip (dest : List Record) (r : Record)
    (hk : getV r "Order_Number" ≠ Value.null)
    (hp : keyPresent dest (getV r "Order_Number") = true) :
    upsertRow dest r = dest := by
  unfold upsertRow
  rw [if_pos ⟨hk, hp⟩]

theorem upsertRow_append (dest : List Record) (r : Record) :
    ∃ s, upsertRow dest r = dest ++ s := by
  unfold upsertRow
  by_cases h : getV r "Order_Number" ≠ Value.null ∧
      keyPresent dest (getV r "Order_Number") = true
  · rw [if_pos h]; exact ⟨[], (List.append_nil dest).symm⟩
  · rw [if_neg h]; exact ⟨[toDestRow r], rfl⟩

theorem loadRows_cons (r : Record) (rows dest : List Record) :
    loadRows (r :: rows) dest = loadRows rows (upsertRow dest r) := rfl

theorem loadRows_split (pre post dest : List Record) :
    loadRows (pre ++ post) dest = loadRows post (loadRows pre dest) := by
  unfold loadRows
  exact List.foldl_append _ _ _ _

theorem loadRows_grows (rows : List Record) :
    ∀ dest, ∃ s, loadRows rows dest = dest ++ s := by
  induction rows with
  | nil => exact fun dest => ⟨[], (List.append_nil dest).symm⟩
  | cons r rows ih =>
    intro dest
    rcases upsertRow_append dest r with ⟨s1, h1⟩
    rcases ih (upsertRow dest r) with ⟨s2, h2⟩
    refine ⟨s1 ++ s2, ?_⟩
    rw [loadRows_cons, h2, h1, List.append_assoc]

theorem keyPresent_append (dest s : List Record) (k : Value)
    (h : keyPresent dest k = true) : keyPresent (dest ++ s) k = true := by
  unfold keyPresent at *
  rw [List.any_append, h, Bool.true_or]

theorem keyPresent_loadRows (rows dest : List Record) (k : Value)
    (h : keyPresent dest k = true) : keyPresent (loadRows rows dest) k = true := by
  rcases loadRows_grows rows dest with ⟨s, hs⟩
  rw [hs]
  exact keyPresent_append dest s k h

theorem countKey_append (a b : List Record) (k : Value) :
    countKey (a ++ b) k = countKey a k + countKey b k := by
  unfold countKey
  rw [List.filter_append, List.length_append]

theorem countKey_eq_zero (dest : List Record) (k : Value)
    (h : keyPresent dest k = false) : countKey dest k = 0 := by
  induction dest with
  | nil => rfl
  | cons d ds ih =>
    unfold keyPresent at h
    rw [List.any_cons, Bool.or_eq_false_iff] at h
    unfold countKey
    rw [List.filter_cons]
    simp only [h.1, Bool.false_eq_true, if_false]
    exact ih h.2

theorem countKey_upsertRow (dest : List Record) (r : Record) (k : Value)
    (hk : k ≠ Value.null) (hp : keyPresent dest k = true) :
    countKey (upsertRow dest r) k = countKey dest k := by
  unfold upsertRow
  by_cases h : getV r "Order_Number" ≠ Value.null ∧
      keyPresent dest (getV r "Order_Number") = true
  · rw [if_pos h]
  · have hne : getV r "Order_Number" ≠ k := by
      intro he
      exact h ⟨by rw [he]; exact hk, by rw [he]; exact hp⟩
    rw [if_neg h, countKey_append]
    have h1 : countKey [toDestRow r] k = 0 := by
      unfold countKey
      rw [List.filter_cons]
      simp [getV_toDestRow_on, hne]
    rw [h1]
    omega

theorem countKey_loadRows (rows : List Record) (k : Value)
    (hk : k ≠ Value.null) :
    ∀ dest, keyPresent dest k = true →
      countKey (loadRows rows dest) k = countKey dest k := by
  induction rows with
  | nil => intro dest _; rfl
  | cons r rows ih =>
    intro dest hp
    have hp2 : keyPresent (upsertRow dest r) k = true := by
      rcases upsertRow_append dest r with ⟨s, hs⟩
      rw [hs]
      exact keyPresent_append dest s k hp
    rw [loadRows_cons, ih (upsertRow dest r) hp2, countKey_upsertRow dest r k hk hp]

theorem uniqueKey_upsertRow (dest : List Record) (r : Record)
    (hu : uniqueKey dest) : uniqueKey (upsertRow dest r) := by
  unfold upsertRow
  by_cases h : getV r "Order_Number" ≠ Value.null ∧
      keyPresent dest (getV r "Order_Number") = true
  · rw [if_pos h]; exact hu
  · rw [if_neg h]
    intro d hd hdn
    rcases List.mem_append.mp hd with hdl | hdr
    · rw [countKey_append]
      have h1 : countKey dest (getV d "Order_Number") ≤ 1 := hu d hdl hdn
      by_cases he : getV r "Order_Number" = getV d "Order_Number"
      · have hnp : keyPresent dest (getV r "Order_Number") = false := by
          cases hb : keyPresent dest (getV r "Order_Number")
          · rfl
          · exact absurd ⟨by rw [he]; exact hdn, hb⟩ h
        have hz : countKey dest (getV d "Order_Number") = 0 := by
          apply countKey_eq_zero
          rw [← he]
          exact hnp
        have h2 : countKey [toDestRow r] (getV d "Order_Number") ≤ 1 :=
          List.length_filter_le _ _
        omega
      · have hz2 : countKey [toDestRow r] (getV d "Order_Number") = 0 := by
          unfold countKey
          rw [List.filter_cons]
          simp [getV_toDestRow_on, he]
        omega
    · have hd2 : d = toDestRow r := by simpa using hdr
      subst hd2
      rw [countKey_append]
      rw [getV_toDestRow_on] at hdn ⊢
      have hnp : keyPresent dest (getV r "Order_Number") = false := by
        cases hb : keyPresent dest (getV r "Order_Number")
        · rfl
        · exact absurd ⟨hdn, hb⟩ h
      rw [countKey_eq_zero dest _ hnp]
      have h2 : countKey [toDestRow r] (getV r "Order_Number") ≤ 1 :=
        List.length_filter_le _ _
      omega

theorem uniqueKey_loadRows (rows : List Record) :
    ∀ dest, uniqueKey dest → uniqueKey (loadRows rows dest) := by
  induction rows with
  | nil => exact fun dest hu => hu
  | cons r rows ih =>
    intro dest hu
    rw [loadRows_cons]
    exact ih (upsertRow dest r) (uniqueKey_upsertRow dest r hu)

/-! ### Pipeline composition lemmas -/

theorem transform_nil : transform_data [] = Except.ok [] := rfl

theorem runPipeline_eq (source stg dst : List Record)
    (hON : "Order_Number" ∈ colsOf source) :
    runPipeline source ⟨stg, dst⟩ =
      match transform_data (stagingBatch source stg) with
      | Except.error e => Except.error e
      | Except.ok cleaned =>
        Except.ok ⟨stg ++ stagingBatch source stg,
          load_transformed_data_to_postgresql cleaned dst⟩ := by
  unfold runPipeline load_data_to_mysql
  rw [if_pos hON]

theorem runPipeline_no_new (source stg dst : List Record)
    (hON : "Order_Number" ∈ colsOf source)
    (hB : stagingBatch source stg = []) :
    runPipeline source ⟨stg, dst⟩ = Except.ok ⟨stg, dst⟩ := by
  rw [runPipeline_eq source stg dst hON, hB, transform_nil]
  show (Except.ok ⟨stg ++ [], load_transformed_data_to_postgresql [] dst⟩ :
      Except String PipelineState) = Except.ok ⟨stg, dst⟩
  rw [List.append_nil]
  rfl

theorem runPipeline_ok_shape (source stg dst : List Record) (st1 : PipelineState)
    (h1 : runPipeline source ⟨stg, dst⟩ = Except.ok st1) :
    "Order_Number" ∈ colsOf source ∧
      ∃ cleaned, transform_data (stagingBatch source stg) = Except.ok cleaned ∧
        st1 = ⟨stg ++ stagingBatch source stg,
          load_transformed_data_to_postgresql cleaned dst⟩ := by
  by_cases hON : "Order_Number" ∈ colsOf source
  · rw [runPipeline_eq source stg dst hON] at h1
    cases htr : transform_data (stagingBatch source stg) with
    | error e =>
      rw [htr] at h1
      have h1' : (Except.error e : Except String PipelineState) = Except.ok st1 := h1
      exact absurd h1' (by simp)
    | ok cleaned =>
      rw [htr] at h1
      have h1' : Except.ok ⟨stg ++ stagingBatch source stg,
          load_transformed_data_to_postgresql cleaned dst⟩ = Except.ok st1 := h1
      injection h1' with h2
      exact ⟨hON, cleaned, rfl, h2.symm⟩
  · have he : runPipeline source ⟨stg, dst⟩ =
        Except.error "Column 'Order_Number' not found in the provided data." := by
      unfold runPipeline load_data_to_mysql
      rw [if_neg hON]
    rw [he] at h1
    exact absurd h1 (by simp)

/-! ### Concrete batches used by the witnesses and counterexamples -/

/-- A one-record source batch with well-formed fields. -/
def exSource : List Record :=
  [[("Order_Number", Value.str "10"), ("Order_Date", Value.str "31/01/2024"),
    ("Cost", Value.str "5"), ("Sales", Value.str "6")]]

/-- Empty staging table and empty destination table. -/
def exState0 : PipelineState := ⟨[], []⟩

/-- The state after one run of the pipeline on exSource from exState0. -/
def exState1 : PipelineState :=
  (runPipeline exSource exState0).toOption.getD exState0

/-- Scenario B input batch: Order_Numbers 1001 and 1002. -/
def exBExtracted : List Record :=
  [[("Order_Number", Value.str "1001")], [("Order_Number", Value.str "1002")]]

/-- Scenario B staging table: Order_Number 1001 already staged. -/
def exBStaging : List Record := [[("Order_Number", Value.str "1001")]]

/-- A record with a negative (integer-coercible) Order_Number. -/
def exC3neg : List Record :=
  [[("Order_Number", Value.str "-5"), ("Order_Date", Value.str "31/01/2024"),
    ("Cost", Value.str "10"), ("Sales", Value.str "20")]]

/-- A batch mixing one coercible and one non-coercible Order_Number. -/
def exC3mix : List Record :=
  [[("Order_Number", Value.str "1"), ("Order_Date", Value.str "31/01/2024"),
    ("Cost", Value.str "10"), ("Sales", Value.str "20")],
   [("Order_Number", Value.str "abc"), ("Order_Date", Value.str "31/01/2024"),
    ("Cost", Value.str "1"), ("Sales", Value.str "2")]]

/-- A batch whose only record has a present-but-unparsable Cost. -/
def exC4 : List Record :=
  [[("Order_Number", Value.str "7"), ("Order_Date", Value.str "31/01/2024"),
    ("Cost", Value.str "abc"), ("Sales", Value.str "3")]]

/-- The record of exC4. -/
def exC4row : Record :=
  [("Order_Number", Value.str "7"), ("Order_Date", Value.str "31/01/2024"),
   ("Cost", Value.str "abc"), ("Sales", Value.str "3")]

/-- Scenario D batch: a staged record whose Cost is the empty string. -/
def exC5 : List Record :=
  [[("Order_Number", Value.str "7"), ("Order_Date", Value.str "31/01/2024"),
    ("Cost", Value.str ""), ("Sales", Value.str "3")]]

/-- A batch whose second record lacks the Order_Number field. -/
def exC6 : List Record :=
  [[("Order_Number", Value.str "1")], [("Name", Value.str "x")]]

/-- Scenario E destination table: Order_Number 2002 already present. -/
def exDest : List Record :=
  [[("Order_Number", Value.str "2002"), ("Cost", Value.num 1)]]

/-- Scenario E incoming cleaned record with the conflicting Order_Number. -/
def exUpRow : Record :=
  [("Order_Number", Value.str "2002"), ("Sales", Value.num 5)]

/-- Scenario C batch: Order_Date 31/01/2024. -/
def exC9 : List Record :=
  [[("Order_Number", Value.str "12"), ("Order_Date", Value.str "31/01/2024"),
    ("Cost", Value.str "1"), ("Sales", Value.str "2")]]

/-- A batch whose Order_Number is the fractional number 1001.7. -/
def exC10 : List Record :=
  [[("Order_Number", Value.num (mkRat 10017 10)), ("Order_Date", Value.str "31/01/2024"),
    ("Cost", Value.str "1"), ("Sales", Value.str "2")]]

/-- A record with the fractional Order_Number 1001.7. -/
def exC10row : Record := [("Order_Number", Value.num (mkRat 10017 10))]

/-! ### Claims -/

/-- C1: running the full pipeline twice on the same source batch leaves both
stores exactly as one run leaves them (the second run is a no-op), and the
destination, unique-keyed to begin with, holds at most one row per
Order_Number afterwards. -/
theorem c1_pipeline_idempotent (source : List Record) (st st1 : PipelineState)
    (hu : uniqueKey st.dest) (h1 : runPipeline source st = Except.ok st1) :
    runPipeline source st1 = Except.ok st1 ∧ uniqueKey st1.dest := by
  obtain ⟨stg, dst⟩ := st
  rcases runPipeline_ok_shape source stg dst st1 h1 with ⟨hON, cleaned, htr, hshape⟩
  subst hshape
  constructor
  · exact runPipeline_no_new source (stg ++ stagingBatch source stg) _ hON
      (stagingBatch_idem source stg)
  · exact uniqueKey_loadRows (normalizeBatch cleaned) dst hu

/-- Witness for C1 at a concrete one-record source and empty stores. -/
theorem c1_witness :
    runPipeline exSource exState1 = Except.ok exState1 ∧ uniqueKey exState1.dest :=
  c1_pipeline_idempotent exSource exState0 exState1
    (fun d hd => absurd hd (List.not_mem_nil d)) (by rfl)

/-- C2: the stager computes the staged batch as exactly the extracted records
whose Order_Number is not among the staging store's existing Order_Number
values, appends that batch to the store, returns the same batch, and the
DataFrame round trip preserves every field value of every record. -/
theorem c2_stager_contract (extracted staging : List Record)
    (hON : "Order_Number" ∈ colsOf extracted) :
    load_data_to_mysql extracted staging =
      Except.ok (staging ++ stagingBatch extracted staging,
        stagingBatch extracted staging)
    ∧ stagingBatch extracted staging =
        (extracted.map (normalizeRow (colsOf extracted))).filter
          (fun r => decide (getV r "Order_Number" ∉ existingOrderNumbers staging))
    ∧ ∀ r ∈ extracted, ∀ k, getV (normalizeRow (colsOf extracted) r) k = getV r k := by
  refine ⟨?_, rfl, ?_⟩
  · unfold load_data_to_mysql
    rw [if_pos hON]
  · intro r hr k
    exact getV_normalizeRow_of_mem extracted r hr k

/-- Witness for C2 at scenario B: only Order_Number 1002 is staged. -/
theorem c2_witness :
    stagingBatch exBExtracted exBStaging = [[("Order_Number", Value.str "1002")]]
    ∧ (load_data_to_mysql exBExtracted exBStaging =
        Except.ok (exBStaging ++ stagingBatch exBExtracted exBStaging,
          stagingBatch exBExtracted exBStaging)
      ∧ stagingBatch exBExtracted exBStaging =
          (exBExtracted.map (normalizeRow (colsOf exBExtracted))).filter
            (fun r => decide (getV r "Order_Number" ∉ existingOrderNumbers exBStaging))
      ∧ ∀ r ∈ exBExtracted, ∀ k,
          getV (normalizeRow (colsOf exBExtracted) r) k = getV r k) :=
  ⟨by rfl, c2_stager_contract exBExtracted exBStaging (by decide)⟩

/-- C3 counterexample: a record with Order_Number the string -5 survives the
transform with output Order_Number -5, the string form of a negative integer;
and a batch with one non-coercible Order_Number fails as a whole, so the
other (coercible) record of the batch produces no output either. -/
theorem c3_counterexample :
    transform_data exC3neg =
      Except.ok [[("Order_Number", Value.str "-5"),
        ("Order_Date", Value.str "2024-01-31"),
        ("Cost", Value.num 10), ("Sales", Value.num 20)]]
    ∧ transform_data exC3mix = Except.error "ValueError: invalid literal for int" := by
  constructor <;> rfl

/-- C3 amended: every record surviving the transform has an Order_Number that
is the string form of an integer (possibly negative), and a batch containing
a record with non-integer-coercible Order_Number at the coercion step fails
with the ValueError as a whole, producing no output at all. -/
theorem c3_amended_canonical_order_number :
    (∀ staged out, transform_data staged = Except.ok out →
      ∀ r' ∈ out, ∃ i : Int, getV r' "Order_Number" = Value.str (toString i))
    ∧ (∀ staged, "Order_Date" ∈ colsOf staged →
        "Cost" ∈ cols2Of staged ∧ "Sales" ∈ cols2Of staged →
        "Order_Number" ∈ cols2Of staged →
        (∃ r ∈ preCoerced staged, intCoerce (getV r "Order_Number") = none) →
        transform_data staged = Except.error "ValueError: invalid literal for int") := by
  constructor
  · intro staged out h r' hr'
    rcases mem_transform_out staged out r' h hr' with ⟨r, _, _, rfl⟩
    exact ⟨(intCoerce (getV r "Order_Number")).getD 0, getV_cleanedRow_order_number r⟩
  · intro staged hOD hCS hON hbad
    exact transform_error_of_bad_on staged hOD hCS hON hbad

/-- Witness for C3 amended at the concrete batches. -/
theorem c3_witness :
    (∃ i : Int, getV [("Order_Number", Value.str "-5"),
        ("Order_Date", Value.str "2024-01-31"),
        ("Cost", Value.num 10), ("Sales", Value.num 20)] "Order_Number" =
      Value.str (toString i))
    ∧ transform_data exC3mix = Except.error "ValueError: invalid literal for int" :=
  ⟨c3_amended_canonical_order_number.1 exC3neg
      [[("Order_Number", Value.str "-5"), ("Order_Date", Value.str "2024-01-31"),
        ("Cost", Value.num 10), ("Sales", Value.num 20)]] (by rfl) _
      (by decide),
   c3_amended_canonical_order_number.2 exC3mix (by decide) (by decide) (by decide)
      ⟨(preCoerced exC3mix).getLastD [], by decide, by rfl⟩⟩

/-- C4: the dropna on Cost and Sales runs before the numeric coercion, so a
staged record whose Cost is present (a string) but not parsable as a number
is not dropped: its cleaned image appears in the output with a null Cost. -/
theorem c4_unparsable_cost_survives (staged out : List Record) (r : Record)
    (s : String) (h : transform_data staged = Except.ok out)
    (hOD : "Order_Date" ∈ colsOf staged) (hr : r ∈ preRows staged)
    (hc : getV r "Cost" = Value.str s) (hcp : numParse s = none)
    (hs : getV r "Sales" ≠ Value.null) :
    cleanedRow r ∈ out ∧ getV (cleanedRow r) "Cost" = Value.null := by
  have h1 : getV r "Cost" ≠ Value.null := by
    rw [hc]
    intro hx
    cases hx
  have hkeep : keepCS (midRow r) = true := by
    rw [keepCS_midRow]
    simp [h1, hs]
  constructor
  · exact cleanedRow_mem_out staged out r h hOD hr hkeep
  · rw [getV_cleanedRow_cost, hc]
    show (match numParse s with
      | some q => Value.num q
      | none => Value.null) = Value.null
    rw [hcp]

/-- Witness for C4 at a record with Cost the unparsable string abc. -/
theorem c4_witness :
    cleanedRow exC4row ∈ (transform_data exC4).toOption.getD []
    ∧ getV (cleanedRow exC4row) "Cost" = Value.null :=
  c4_unparsable_cost_survives exC4 ((transform_data exC4).toOption.getD [])
    exC4row "abc" (by rfl) (by decide) (by decide) (by rfl) (by rfl) (by decide)

/-- C5 counterexample: the staged record of scenario D, with Cost the empty
string, is not dropped: the transform emits it with a null Cost and the
upsert inserts it into an empty destination. -/
theorem c5_counterexample :
    ((transform_data exC5).toOption.getD []).map (fun r => getV r "Cost") =
      [Value.null]
    ∧ (load_transformed_data_to_postgresql
        ((transform_data exC5).toOption.getD []) []).length = 1 := by
  constructor <;> rfl

/-- C5 amended: the drop-on-missing rule excludes exactly the records whose
Cost or Sales is null/missing at the drop step — every cleaned output record
comes from a record with non-null Cost and Sales — while a record whose Cost
is the present empty string survives, with Cost coerced to null. -/
theorem c5_amended_null_cost_dropped :
    (∀ staged out, transform_data staged = Except.ok out →
      ∀ r' ∈ out, ∃ r, r ∈ preRows staged ∧
        getV r "Cost" ≠ Value.null ∧ getV r "Sales" ≠ Value.null ∧
        r' = cleanedRow r)
    ∧ ((transform_data exC5).toOption.getD []).map (fun r => getV r "Cost") =
        [Value.null] := by
  constructor
  · intro staged out h r' hr'
    rcases mem_transform_out staged out r' h hr' with ⟨r, hr, hkeep, rfl⟩
    rw [keepCS_midRow, Bool.and_eq_true, decide_eq_true_eq, decide_eq_true_eq]
      at hkeep
    exact ⟨r, hr, hkeep.1, hkeep.2, rfl⟩
  · rfl

/-- Witness for C5 amended at the scenario D batch. -/
theorem c5_witness :
    ∃ r, r ∈ preRows exC5 ∧
      getV r "Cost" ≠ Value.null ∧ getV r "Sales" ≠ Value.null ∧
      ((transform_data exC5).toOption.getD []).headD [] = cleanedRow r :=
  c5_amended_null_cost_dropped.1 exC5 ((transform_data exC5).toOption.getD [])
    (by rfl) (((transform_data exC5).toOption.getD []).headD []) (by decide)

/-- C6 counterexample: a batch whose second record lacks Order_Number does not
make staging fail — the column exists through the first record, staging
succeeds, and even the field-lacking record is staged (with null key). -/
theorem c6_counterexample :
    load_data_to_mysql exC6 [] =
      Except.ok ([[("Order_Number", Value.str "1"), ("Name", Value.null)],
                  [("Order_Number", Value.null), ("Name", Value.str "x")]],
                 [[("Order_Number", Value.str "1"), ("Name", Value.null)],
                  [("Order_Number", Value.null), ("Name", Value.str "x")]])
    ∧ getField [("Name", Value.str "x")] "Order_Number" = none := by
  constructor <;> rfl

/-- C6 amended: staging fails with the schema error (and stages nothing —
the error return carries no store change) exactly when the Order_Number
column is absent from the batch as a whole, i.e. when no record of the batch
has an Order_Number field. -/
theorem c6_amended_schema_check (extracted staging : List Record)
    (h : "Order_Number" ∉ colsOf extracted) :
    load_data_to_mysql extracted staging =
      Except.error "Column 'Order_Number' not found in the provided data." := by
  unfold load_data_to_mysql
  rw [if_neg h]

/-- Witness for C6 amended at a batch with no Order_Number field at all. -/
theorem c6_witness :
    load_data_to_mysql [[("Name", Value.str "x")]] [] =
      Except.error "Column 'Order_Number' not found in the provided data." :=
  c6_amended_schema_check [[("Name", Value.str "x")]] [] (by decide)

/-- C7: a staged batch whose schema lacks Order_Date makes the transform stop
with no error and no output, and an empty cleaned batch makes the upsert
stage a no-op on the destination. -/
theorem c7_missing_order_date_skip (staged dest : List Record)
    (h : "Order_Date" ∉ colsOf staged) :
    transform_data staged = Except.ok []
    ∧ load_transformed_data_to_postgresql [] dest = dest :=
  ⟨transform_skip staged h, rfl⟩

/-- Witness for C7 at a batch without an Order_Date column. -/
theorem c7_witness :
    transform_data [[("X", Value.str "1")]] = Except.ok []
    ∧ load_transformed_data_to_postgresql [] [[("Order_Number", Value.str "9")]] =
        [[("Order_Number", Value.str "9")]] :=
  c7_missing_order_date_skip [[("X", Value.str "1")]]
    [[("Order_Number", Value.str "9")]] (by decide)

/-- C8: a cleaned record whose (non-null) Order_Number already has a row in
the destination is skipped by the conditional insert — processing the batch
with the record equals processing the batch without it, the key's row count
stays one, and the existing destination rows are only ever appended to,
never modified. -/
theorem c8_upsert_conflict_skip (dest pre post : List Record) (r : Record)
    (hk : getV r "Order_Number" ≠ Value.null)
    (hp : keyPresent dest (getV r "Order_Number") = true)
    (hc : countKey dest (getV r "Order_Number") = 1) :
    loadRows (pre ++ r :: post) dest = loadRows (pre ++ post) dest
    ∧ countKey (loadRows (pre ++ r :: post) dest) (getV r "Order_Number") = 1
    ∧ ∃ s, loadRows (pre ++ r :: post) dest = dest ++ s := by
  have hskip : loadRows (pre ++ r :: post) dest = loadRows (pre ++ post) dest := by
    rw [loadRows_split pre (r :: post) dest, loadRows_cons,
      loadRows_split pre post dest]
    congr 1
    apply upsertRow_skip
    · exact hk
    · exact keyPresent_loadRows pre dest _ hp
  refine ⟨hskip, ?_, loadRows_grows _ dest⟩
  rw [countKey_loadRows (pre ++ r :: post) (getV r "Order_Number") hk dest hp]
  exact hc

/-- Witness for C8 at scenario E. -/
theorem c8_witness :
    loadRows ([] ++ exUpRow :: []) exDest = loadRows ([] ++ []) exDest
    ∧ countKey (loadRows ([] ++ exUpRow :: []) exDest)
        (getV exUpRow "Order_Number") = 1
    ∧ ∃ s, loadRows ([] ++ exUpRow :: []) exDest = exDest ++ s :=
  c8_upsert_conflict_skip exDest [] [] exUpRow (by decide) (by rfl) (by rfl)

/-- C9: every cleaned output record carries as Order_Date the dateTransform of
its source record's Order_Date — a d/m/Y string becomes its YYYY-MM-DD form,
scenario C included — an unparsable value becomes null, and a record is never
dropped at the date step (its survival depends only on Cost and Sales). -/
theorem c9_order_date_normalization (staged out : List Record)
    (h : transform_data staged = Except.ok out) :
    (∀ r' ∈ out, ∃ r, r ∈ preRows staged ∧ r' = cleanedRow r ∧
        getV r' "Order_Date" = dateTransform (getV r "Order_Date"))
    ∧ dateTransform (Value.str "31/01/2024") = Value.str "2024-01-31"
    ∧ (∀ s, parseDMY s = none → dateTransform (Value.str s) = Value.null)
    ∧ (∀ r, r ∈ preRows staged → "Order_Date" ∈ colsOf staged →
        keepCS (midRow r) = true → cleanedRow r ∈ out) := by
  refine ⟨?_, by rfl, ?_, ?_⟩
  · intro r' hr'
    rcases mem_transform_out staged out r' h hr' with ⟨r, hr, _, rfl⟩
    exact ⟨r, hr, rfl, getV_cleanedRow_date r⟩
  · intro s hs
    show (match parseDMY s with
      | some (d, m, y) => Value.str (fmtYMD y m d)
      | none => Value.null) = Value.null
    rw [hs]
  · intro r hr hOD hkeep
    exact cleanedRow_mem_out staged out r h hOD hr hkeep

/-- Witness for C9 at the scenario C batch. -/
theorem c9_witness :
    (∀ r' ∈ (transform_data exC9).toOption.getD [], ∃ r, r ∈ preRows exC9 ∧
        r' = cleanedRow r ∧
        getV r' "Order_Date" = dateTransform (getV r "Order_Date"))
    ∧ dateTransform (Value.str "31/01/2024") = Value.str "2024-01-31"
    ∧ (∀ s, parseDMY s = none → dateTransform (Value.str s) = Value.null)
    ∧ (∀ r, r ∈ preRows exC9 → "Order_Date" ∈ colsOf exC9 →
        keepCS (midRow r) = true →
        cleanedRow r ∈ (transform_data exC9).toOption.getD []) :=
  c9_order_date_normalization exC9 ((transform_data exC9).toOption.getD []) (by rfl)

/-- C10: a numeric Order_Number is always integer-coercible — the cast
truncates it toward zero and the canonical output is the truncated integer's
string form; in particular 1001.7 yields 1001 and the whole transform of a
batch carrying 1001.7 outputs the string 1001. -/
theorem c10_fractional_order_number :
    (∀ r : Record, ∀ q : Rat, getV r "Order_Number" = Value.num q →
      intCoerce (getV r "Order_Number") = some (ratTrunc q)
      ∧ getV (rowON r) "Order_Number" = Value.str (toString (ratTrunc q)))
    ∧ ratTrunc (mkRat 10017 10) = 1001 ∧ ratTrunc (mkRat (-10017) 10) = -1001
    ∧ ((transform_data exC10).toOption.getD []).map
        (fun r => getV r "Order_Number") = [Value.str "1001"] := by
  refine ⟨?_, by rfl, by rfl, by rfl⟩
  intro r q hq
  constructor
  · rw [hq]; rfl
  · rw [getV_rowON_same, hq]; rfl

/-- Witness for C10 at the fractional record 1001.7. -/
theorem c10_witness :
    intCoerce (getV exC10row "Order_Number") = some (ratTrunc (mkRat 10017 10))
    ∧ getV (rowON exC10row) "Order_Number" =
        Value.str (toString (ratTrunc (mkRat 10017 10))) :=
  c10_fractional_order_number.1 exC10row (mkRat 10017 10) (by rfl)
